import Mathlib

/-!
Verification of the OpenQASM 3 import/export bridge (crate `qasm3`):
the entry points `loads`, `load`, `dumps`, `dump` from
`src/crates/qasm3/src/lib.rs`, together with a model of the AST-to-circuit
builder and the circuit-to-text exporter described in the specification.
The crate's `build`, `exporter`, `printer`, `circuit` and `expr` modules
are not part of the provided sources; where a property depends on them the
corresponding definition is modelled from the spec and its doc comment
says so explicitly.
-/

namespace Qasm3

/-- A Python-side gate constructor (`circuit::PyGate`): `loads` only ever
uses its `name()` to key the gate-resolution map, so it is modelled as a
name plus an opaque constructor identity. -/
structure PyGate where
  name : String
  ctorId : Nat
deriving DecidableEq

/-- Association-list lookup by gate name, modelling lookup in the
`hashbrown::HashMap` that `loads` builds. -/
def lookupGate : List (String × PyGate) → String → Option PyGate
  | [], _ => none
  | p :: rest, nm => if p.1 = nm then some p.2 else lookupGate rest nm

/-- Insertion with overwrite-on-equal-key, modelling `HashMap` insertion as
performed by the `collect()` calls in `loads` (`lib.rs:84-98`). -/
def insertGate : List (String × PyGate) → String → PyGate → List (String × PyGate)
  | [], k, v => [(k, v)]
  | p :: rest, k, v => if p.1 = k then (k, v) :: rest else p :: insertGate rest k v

/-- Collect a list of gates into the name-keyed map, as the iterator
`collect` in `loads` does: each gate is keyed by its own `name()`. -/
def collectGates (gs : List PyGate) : List (String × PyGate) :=
  gs.foldl (fun m g => insertGate m g.name g) []

/-- The gate-resolution map built by `loads` (`lib.rs:84-98`): when
`custom_gates` is supplied the map holds exactly the supplied gates;
otherwise it holds the `STDGATES_INC_GATES` standard-library constructors
(passed here as `std`). -/
def makeGateMap (custom : Option (List PyGate)) (std : List PyGate) :
    List (String × PyGate) :=
  match custom with
  | some gs => collectGates gs
  | none => collectGates std

/-- The fixed set of exporter options (`DumpOptions` at `lib.rs:157-164`). -/
structure DumpOptions where
  includes : List String
  basis_gates : List String
  disable_constants : Bool
  allow_aliasing : Bool
  indent : String
deriving DecidableEq

/-- The `Default` impl for `DumpOptions` (`lib.rs:166-176`). -/
def DumpOptions.default : DumpOptions :=
  { includes := ["stdgates.inc"]
    basis_gates := []
    disable_constants := true
    allow_aliasing := false
    indent := "  " }

/-- The keyword arguments accepted by `dumps`/`dump`: each recognised key is
either absent from the dict or present with a value of the right type. -/
structure Kwargs where
  includes : Option (List String)
  basis_gates : Option (List String)
  disable_constants : Option Bool
  allow_aliasing : Option Bool
  indent : Option String
deriving DecidableEq

/-- Option parsing as written in `dumps` (`lib.rs:185-203`): start from the
default and overwrite each field whose key appears in `kwargs`. -/
def parseKwargsDumps (kwargs : Option Kwargs) : DumpOptions :=
  match kwargs with
  | none => DumpOptions.default
  | some kw =>
    let options := DumpOptions.default
    let options := match kw.includes with
      | some v => { options with includes := v }
      | none => options
    let options := match kw.basis_gates with
      | some v => { options with basis_gates := v }
      | none => options
    let options := match kw.disable_constants with
      | some v => { options with disable_constants := v }
      | none => options
    let options := match kw.allow_aliasing with
      | some v => { options with allow_aliasing := v }
      | none => options
    let options := match kw.indent with
      | some v => { options with indent := v }
      | none => options
    options

/-- Option parsing as written in `dump` (`lib.rs:236-254`), a textual copy of
the block in `dumps`. -/
def parseKwargsDump (kwargs : Option Kwargs) : DumpOptions :=
  match kwargs with
  | none => DumpOptions.default
  | some kw =>
    let options := DumpOptions.default
    let options := match kw.includes with
      | some v => { options with includes := v }
      | none => options
    let options := match kw.basis_gates with
      | some v => { options with basis_gates := v }
      | none => options
    let options := match kw.disable_constants with
      | some v => { options with disable_constants := v }
      | none => options
    let options := match kw.allow_aliasing with
      | some v => { options with allow_aliasing := v }
      | none => options
    let options := match kw.indent with
      | some v => { options with indent := v }
      | none => options
    options

/-- Modelled from the spec: a Register of the CircuitIR data model (§3) — a
named, fixed-size sequence of quantum or classical slots (the concrete
container lives in the crate's `circuit` module, not in the provided
sources). -/
structure Register where
  name : String
  size : Nat
  quantum : Bool
deriving DecidableEq

/-- Modelled from the spec: an Instruction of the CircuitIR (§3) — operation
name, ordered operand references `(register-or-alias name, index)`, ordered
folded literal parameters (§4.2 step 6 guarantees parameters are fully
folded by import time), and an optional classical condition
`(classical bit reference, equality value)`. -/
structure Instruction where
  name : String
  operands : List (String × Nat)
  params : List Int
  cond : Option ((String × Nat) × Nat)
deriving DecidableEq

/-- Modelled from the spec: the CircuitIR (§3) — registers in insertion
order, an alias table mapping a name to its resolved `(register, index)`
list, and the instruction list in execution order. -/
structure CircuitIR where
  registers : List Register
  aliases : List (String × List (String × Nat))
  instructions : List Instruction
deriving DecidableEq

/-- Modelled from the spec: one emitted/parsed OpenQASM 3 statement, the
interface level between the exporter's printer and the external front-end
(validated AST nodes, §6). -/
inductive Stmt where
  | incl (nm : String)
  | regDecl (quantum : Bool) (nm : String) (size : Nat)
  | gateCall (nm : String) (params : List Int) (operands : List (String × Nat))
      (cond : Option ((String × Nat) × Nat))
deriving DecidableEq

/-- The export-side error (`ExportError`, spec §7): a message plus the
offending instruction's position in the CircuitIR. -/
structure ExportError where
  index : Nat
  msg : String
deriving DecidableEq

/-- The build-side error taxonomy (`BuildError`, spec §7). -/
inductive BuildError where
  | unresolvedGate (nm : String)
  | invalidOperand (nm : String)
deriving DecidableEq

/-- The Python-surfaced failure categories of `lib.rs`:
`QASM3ImporterError` for importer/exporter failures raised at the binding
layer, kept distinct from the core `BuildError` taxonomy. -/
inductive PyErr where
  | qasm3ImporterError (msg : String)
  | buildError (e : BuildError)
deriving DecidableEq

/-- Look up a register by name (first match, as registers are keyed by their
declared name). -/
def findRegister (regs : List Register) (nm : String) : Option Register :=
  regs.find? (fun r => r.name = nm)

/-- Look up an alias's resolved index list by name. -/
def findAlias (aliases : List (String × List (String × Nat))) (nm : String) :
    Option (List (String × Nat)) :=
  (aliases.find? (fun p => p.1 = nm)).map Prod.snd

/-- Decide that an operand reference points directly at a valid register
index (the CircuitIR validity invariant of §3). -/
def validOperand (regs : List Register) (op : String × Nat) : Bool :=
  match findRegister regs op.1 with
  | some r => op.2 < r.size
  | none => false

/-- Modelled from the spec: exporter-side resolution of one operand
reference (§4.3 step 4, `exporter` module not in the provided sources).
A direct register reference must be in range; an alias reference is kept
symbolic when `useAliases` is set, otherwise it is resolved to the
physical `(register, index)` entry; anything else is unresolved. -/
def resolveOperand (c : CircuitIR) (useAliases : Bool) (op : String × Nat) :
    Option (String × Nat) :=
  match findRegister c.registers op.1 with
  | some r => if op.2 < r.size then some op else none
  | none =>
    match findAlias c.aliases op.1 with
    | some entries =>
      if useAliases then
        if op.2 < entries.length then some op else none
      else
        entries[op.2]?
    | none => none

/-- Resolve a whole operand list, failing if any single operand fails. -/
def resolveOperands (c : CircuitIR) (useAliases : Bool) :
    List (String × Nat) → Option (List (String × Nat))
  | [] => some []
  | op :: rest =>
    match resolveOperand c useAliases op, resolveOperands c useAliases rest with
    | some r, some rs => some (r :: rs)
    | _, _ => none

/-- Modelled from the spec: export of a single instruction at position `i`
(§4.3 steps 3-4 and §7): the operand count is checked against the gate's
declared arity when one is known, and every operand reference must
resolve; on failure the `ExportError` carries the instruction index. -/
def exportInstr (c : CircuitIR) (useAliases : Bool) (arities : String → Option Nat)
    (i : Nat) (ins : Instruction) : Except ExportError Stmt :=
  match arities ins.name with
  | some n =>
    if ins.operands.length = n then
      match resolveOperands c useAliases ins.operands with
      | some resolved => .ok (.gateCall ins.name ins.params resolved ins.cond)
      | none => .error ⟨i, "unresolved operand reference"⟩
    else .error ⟨i, "operand count mismatch"⟩
  | none =>
    match resolveOperands c useAliases ins.operands with
    | some resolved => .ok (.gateCall ins.name ins.params resolved ins.cond)
    | none => .error ⟨i, "unresolved operand reference"⟩

/-- Export the instruction list, threading the instruction index; the first
failure aborts the traversal (spec §5: all-or-nothing cancellation). -/
def exportInstrs (c : CircuitIR) (useAliases : Bool) (arities : String → Option Nat) :
    Nat → List Instruction → Except ExportError (List Stmt)
  | _, [] => .ok []
  | i, ins :: rest =>
    match exportInstr c useAliases arities i ins with
    | .error e => .error e
    | .ok s =>
      match exportInstrs c useAliases arities (i + 1) rest with
      | .error e => .error e
      | .ok ss => .ok (s :: ss)

/-- Deduplicate the include list keeping first occurrences in order
(§4.3 step 1: includes are emitted in the given order, deduplicated). -/
def dedupIncludes (seen : List String) : List String → List String
  | [] => []
  | x :: xs =>
    if seen.contains x then dedupIncludes seen xs
    else x :: dedupIncludes (x :: seen) xs

/-- Modelled from the spec: the exporter's statement-level output (§4.3):
include statements in order (deduplicated), register declarations in
insertion order, then one statement per instruction in execution order.
Operand references use alias names only when `allow_aliasing` is set and a
layout is present. -/
def exportStmts (c : CircuitIR) (layoutPresent : Bool) (opts : DumpOptions)
    (arities : String → Option Nat) : Except ExportError (List Stmt) :=
  let useAliases := opts.allow_aliasing && layoutPresent
  match exportInstrs c useAliases arities 0 c.instructions with
  | .error e => .error e
  | .ok instrStmts =>
    .ok ((dedupIncludes [] opts.includes).map Stmt.incl
      ++ c.registers.map (fun r => Stmt.regDecl r.quantum r.name r.size)
      ++ instrStmts)

/-- Modelled from the spec: the printer's rendering of one statement into
OpenQASM 3 text (`printer` module not in the provided sources); a plain
deterministic string function. -/
def renderStmt : Stmt → String
  | .incl nm => "include \"" ++ nm ++ "\";\n"
  | .regDecl q nm size =>
    (if q then "qubit[" else "bit[") ++ toString size ++ "] " ++ nm ++ ";\n"
  | .gateCall nm params operands cond =>
    (match cond with
     | some ((cn, ci), v) =>
       "if (" ++ cn ++ "[" ++ toString ci ++ "] == " ++ toString v ++ ") "
     | none => "")
    ++ nm
    ++ (if params.isEmpty then ""
        else "(" ++ String.intercalate ", " (params.map toString) ++ ")")
    ++ (if operands.isEmpty then ""
        else " " ++ String.intercalate ", "
          (operands.map (fun op => op.1 ++ "[" ++ toString op.2 ++ "]")))
    ++ ";\n"

/-- Render a whole statement list behind the fixed version header. -/
def renderProgram (stmts : List Stmt) : String :=
  "OPENQASM 3.0;\n" ++ String.join (stmts.map renderStmt)

/-- Modelled from the spec: `Exporter::dumps` — export to statements, then
render to text; any export failure is returned unchanged and no text is
produced. -/
def exportCircuit (c : CircuitIR) (layoutPresent : Bool) (opts : DumpOptions)
    (arities : String → Option Nat) : Except ExportError String :=
  match exportStmts c layoutPresent opts arities with
  | .error e => .error e
  | .ok stmts => .ok (renderProgram stmts)

/-- Modelled from the spec: the AST-to-circuit builder core (§4.2, `build`
module not in the provided sources), consuming validated statements in
source order: register declarations append Registers, a gate call first
resolves its name through the gate-resolution capability (failing with
`BuildError` when nothing resolves) and then eagerly validates every
operand reference against the registers in scope before appending the
Instruction; the first failure aborts the whole build. -/
def buildStmts (factory : String → Option PyGate) :
    List Stmt → CircuitIR → Except BuildError CircuitIR
  | [], acc => .ok acc
  | .incl _ :: rest, acc => buildStmts factory rest acc
  | .regDecl q nm size :: rest, acc =>
    buildStmts factory rest
      { acc with registers := acc.registers ++ [⟨nm, size, q⟩] }
  | .gateCall nm params operands cond :: rest, acc =>
    match factory nm with
    | none => .error (.unresolvedGate nm)
    | some _ =>
      if operands.all (fun op => validOperand acc.registers op) then
        buildStmts factory rest
          { acc with instructions := acc.instructions ++ [⟨nm, operands, params, cond⟩] }
      else .error (.invalidOperand nm)

/-- Build a full program from an empty CircuitIR (§3 lifecycle). -/
def build (stmts : List Stmt) (factory : String → Option PyGate) :
    Except BuildError CircuitIR :=
  buildStmts factory stmts ⟨[], [], []⟩

/-- The result the external front-end (`parse_source_string`) hands back:
whether any parse/semantic diagnostics were reported, and the validated
program when there are none (spec §6: "either fully valid, or carries zero
or more diagnostics"). -/
structure ParseResult where
  anyErrors : Bool
  program : List Stmt
deriving DecidableEq

/-- Observable phases of a `loads`/`load` call, used to state that a phase
was never attempted. -/
inductive Step where
  | parseStep
  | gateResolutionStep
  | buildStep
deriving DecidableEq

/-- Modelled from the spec: the default include path `loads` computes when
`include_path` is not given (`lib.rs:68-75`): the directory next to the
host `qiskit` package that contains only `stdgates.inc`. -/
def defaultIncludePath : List String :=
  ["qiskit/qasm/libs/dummy"]

/-- The control flow of `loads` (`lib.rs:62-100`): default the include
path, run the external front-end, and if it reported any errors return
`QASM3ImporterError` at once — the gate-resolution map is not built and
the builder is not invoked.  Otherwise build the gate map
(caller-supplied gates, or the standard-library constructors `std`) and
run the builder on the validated program.  The second component records
which phases ran. -/
def loadsModel (parse : String → List String → ParseResult) (std : List PyGate)
    (source : String) (customGates : Option (List PyGate))
    (includePath : Option (List String)) :
    Except PyErr CircuitIR × List Step :=
  let ip := includePath.getD defaultIncludePath
  let result := parse source ip
  if result.anyErrors then
    (.error (.qasm3ImporterError "errors during parsing; see printed errors"),
      [.parseStep])
  else
    let gates := makeGateMap customGates std
    match build result.program (lookupGate gates) with
    | .error e => (.error (.buildError e), [.parseStep, .gateResolutionStep, .buildStep])
    | .ok c => (.ok c, [.parseStep, .gateResolutionStep, .buildStep])

/-- The two shapes of `load`'s first argument (`lib.rs:134-155`): an open
text stream (consumed through `read()`, its full contents a string), or a
filepath to be read from the filesystem. -/
inductive LoadInput where
  | stream (contents : String)
  | filePath (p : String)
deriving DecidableEq

/-- The full contents `load` would obtain from its input, given the
filesystem `fs`. -/
def inputContents (fs : String → Option String) : LoadInput → Option String
  | .stream contents => some contents
  | .filePath p => fs p

/-- The control flow of `load` (`lib.rs:134-155`): a stream is read and
passed to `loads`; a filepath is read through the filesystem and passed to
`loads`, and a failed read raises `QASM3ImporterError` naming the path
before any parsing is attempted. -/
def loadModel (fs : String → Option String)
    (parse : String → List String → ParseResult) (std : List PyGate)
    (input : LoadInput) (customGates : Option (List PyGate))
    (includePath : Option (List String)) :
    Except PyErr CircuitIR × List Step :=
  match input with
  | .stream contents => loadsModel parse std contents customGates includePath
  | .filePath p =>
    match fs p with
    | some s => loadsModel parse std s customGates includePath
    | none =>
      (.error (.qasm3ImporterError ("failed to read file '" ++ p ++ "'")), [])

/-- The Python-level circuit object as `dumps`/`dump` see it: its `_data`
(the CircuitIR) and its `layout` attribute, which may be `None`. -/
structure PyCircuit where
  data : CircuitIR
  layout : Option Nat
deriving DecidableEq

/-- The control flow of `dumps` (`lib.rs:180-226`): parse the options from
`kwargs`, compute layout presence as `layout is not None`, run the
exporter, and wrap an exporter failure in `QASM3ImporterError`. -/
def dumpsModel (circuit : PyCircuit) (kwargs : Option Kwargs)
    (arities : String → Option Nat) : Except PyErr String :=
  let options := parseKwargsDumps kwargs
  let islayout := circuit.layout.isSome
  match exportCircuit circuit.data islayout options arities with
  | .error e =>
    .error (.qasm3ImporterError
      ("failed to export circuit using qasm3.dumps_experimental: " ++ e.msg))
  | .ok stream => .ok stream

/-- The control flow of `dump` (`lib.rs:230-285`): parse the options from
`kwargs`, compute layout presence, run the exporter into an in-memory
buffer, validate the buffer as UTF-8 (`validate` models
`String::from_utf8`), and only then perform the single `write` call on the
caller's stream; the second component is the ordered list of strings
written to the stream. -/
def dumpModel (validate : String → Option String) (circuit : PyCircuit)
    (kwargs : Option Kwargs) (arities : String → Option Nat) :
    Except PyErr Unit × List String :=
  let options := parseKwargsDump kwargs
  let islayout := circuit.layout.isSome
  match exportCircuit circuit.data islayout options arities with
  | .error e =>
    (.error (.qasm3ImporterError
      ("failed to export circuit using qasm3.dump_experimental: " ++ e.msg)), [])
  | .ok output =>
    match validate output with
    | none => (.error (.qasm3ImporterError "invalid utf-8 output"), [])
    | some outputStr => (.ok (), [outputStr])

theorem lookupGate_insertGate_self (m : List (String × PyGate)) (k : String)
    (v : PyGate) : lookupGate (insertGate m k v) k = some v := by
  induction m with
  | nil => simp [insertGate, lookupGate]
  | cons p rest ih =>
    by_cases h : p.1 = k
    · simp [insertGate, h, lookupGate]
    · simp [insertGate, h, lookupGate, ih]

theorem lookupGate_insertGate_ne (m : List (String × PyGate)) (k nm : String)
    (v : PyGate) (hk : k ≠ nm) :
    lookupGate (insertGate m k v) nm = lookupGate m nm := by
  induction m with
  | nil => simp [insertGate, lookupGate, hk]
  | cons p rest ih =>
    by_cases hpk : p.1 = k
    · have hpnm : ¬p.1 = nm := by rw [hpk]; exact hk
      simp [insertGate, hpk, lookupGate, hk, hpnm]
    · by_cases hnm : p.1 = nm
      · simp [insertGate, hpk, lookupGate, hnm, Ne.symm hk]
      · simp [insertGate, hpk, lookupGate, hnm, ih]

theorem lookupGate_insertGate_isSome (m : List (String × PyGate)) (k nm : String)
    (v : PyGate) (h : (lookupGate m nm).isSome) :
    (lookupGate (insertGate m k v) nm).isSome := by
  by_cases hk : k = nm
  · subst hk
    rw [lookupGate_insertGate_self]
    rfl
  · rw [lookupGate_insertGate_ne m k nm v hk]
    exact h

theorem mem_insertGate (m : List (String × PyGate)) (k : String) (v : PyGate)
    (p : String × PyGate) (hp : p ∈ insertGate m k v) : p ∈ m ∨ p = (k, v) := by
  induction m with
  | nil => simpa [insertGate] using hp
  | cons q rest ih =>
    by_cases h : q.1 = k
    · simp only [insertGate, if_pos h] at hp
      rcases List.mem_cons.mp hp with h1 | h1
      · right; exact h1
      · left; exact List.mem_cons_of_mem _ h1
    · simp only [insertGate, if_neg h] at hp
      rcases List.mem_cons.mp hp with h1 | h1
      · left; exact h1 ▸ List.mem_cons_self _ _
      · rcases ih h1 with h2 | h2
        · left; exact List.mem_cons_of_mem _ h2
        · right; exact h2

theorem lookupGate_mem (m : List (String × PyGate)) (nm : String) (g : PyGate)
    (h : lookupGate m nm = some g) : (nm, g) ∈ m := by
  induction m with
  | nil => simp [lookupGate] at h
  | cons p rest ih =>
    by_cases hp : p.1 = nm
    · simp only [lookupGate, if_pos hp] at h
      have : p = (nm, g) := by
        cases p with
        | mk a b => simp_all
      exact this ▸ List.mem_cons_self _ _
    · simp only [lookupGate, if_neg hp] at h
      exact List.mem_cons_of_mem _ (ih h)

theorem foldl_insertGate_inv (P : String × PyGate → Prop) (gs : List PyGate) :
    ∀ m : List (String × PyGate), (∀ p ∈ m, P p) → (∀ g ∈ gs, P (g.name, g)) →
    ∀ p ∈ gs.foldl (fun m g => insertGate m g.name g) m, P p := by
  induction gs with
  | nil => intro m hm _ p hp; exact hm p (by simpa using hp)
  | cons g gs ih =>
    intro m hm hg p hp
    refine ih (insertGate m g.name g) ?_ (fun g' hg' => hg g' (List.mem_cons_of_mem _ hg')) p (by simpa using hp)
    intro q hq
    rcases mem_insertGate m g.name g q hq with h | h
    · exact hm q h
    · exact h ▸ hg g (List.mem_cons_self _ _)

theorem collectGates_mem (gs : List PyGate) (p : String × PyGate)
    (hp : p ∈ collectGates gs) : p.2 ∈ gs ∧ p.2.name = p.1 := by
  refine foldl_insertGate_inv (fun p => p.2 ∈ gs ∧ p.2.name = p.1) gs [] ?_ ?_ p hp
  · intro q hq; simp at hq
  · intro g hg; exact ⟨hg, rfl⟩

theorem lookupGate_foldl_isSome (gs : List PyGate) :
    ∀ (m : List (String × PyGate)) (nm : String),
    ((lookupGate m nm).isSome ∨ ∃ g ∈ gs, g.name = nm) →
    (lookupGate (gs.foldl (fun m g => insertGate m g.name g) m) nm).isSome := by
  induction gs with
  | nil =>
    intro m nm h
    rcases h with h | ⟨g, hg, _⟩
    · simpa using h
    · simp at hg
  | cons g gs ih =>
    intro m nm h
    simp only [List.foldl_cons]
    rcases h with h | ⟨g', hg', hnm⟩
    · exact ih _ nm (Or.inl (lookupGate_insertGate_isSome m g.name nm g h))
    · rcases List.mem_cons.mp hg' with h1 | h1
      · subst h1
        refine ih _ nm (Or.inl ?_)
        rw [hnm, lookupGate_insertGate_self]
        rfl
      · exact ih _ nm (Or.inr ⟨g', h1, hnm⟩)

/-- C1: when `custom_gates` is supplied, a name resolves through the
gate-resolution map exactly to a caller-supplied constructor for that name
(and resolves whenever one was supplied); when `custom_gates` is not
supplied, every standard-library gate name resolves to a standard-library
constructor of that name.  Contrary to the claim as stated, supplying
`custom_gates` does not keep standard-library names resolvable alongside
(see the counterexample). -/
theorem C1_gate_resolution (custom std : List PyGate) (nm : String) :
    (∀ g, lookupGate (makeGateMap (some custom) std) nm = some g →
      g ∈ custom ∧ g.name = nm)
    ∧ ((∃ g ∈ custom, g.name = nm) →
      ∃ g, lookupGate (makeGateMap (some custom) std) nm = some g)
    ∧ ((∃ g ∈ std, g.name = nm) →
      ∃ g, lookupGate (makeGateMap none std) nm = some g ∧ g ∈ std ∧ g.name = nm) := by
  refine ⟨?_, ?_, ?_⟩
  · intro g h
    have hmem := lookupGate_mem _ _ _ h
    have := collectGates_mem custom (nm, g) hmem
    exact ⟨this.1, this.2⟩
  · intro ⟨g, hg, hnm⟩
    have := lookupGate_foldl_isSome custom [] nm (Or.inr ⟨g, hg, hnm⟩)
    exact Option.isSome_iff_exists.mp this
  · intro ⟨g, hg, hnm⟩
    have hsome := lookupGate_foldl_isSome std [] nm (Or.inr ⟨g, hg, hnm⟩)
    rcases Option.isSome_iff_exists.mp hsome with ⟨g', hg'⟩
    have hmem := lookupGate_mem _ _ _ hg'
    have := collectGates_mem std (nm, g') hmem
    exact ⟨g', hg', this.1, this.2⟩

theorem C1_gate_resolution_witness :
    (∃ g, lookupGate (makeGateMap (some [⟨"mygate", 0⟩]) [⟨"h", 1⟩]) "mygate" = some g)
    ∧ (∃ g, lookupGate (makeGateMap none [⟨"h", 1⟩]) "h" = some g
        ∧ g ∈ [(⟨"h", 1⟩ : PyGate)] ∧ g.name = "h") :=
  ⟨(C1_gate_resolution [⟨"mygate", 0⟩] [⟨"h", 1⟩] "mygate").2.1
      ⟨⟨"mygate", 0⟩, List.mem_singleton.mpr rfl, rfl⟩,
    (C1_gate_resolution [⟨"mygate", 0⟩] [⟨"h", 1⟩] "h").2.2
      ⟨⟨"h", 1⟩, List.mem_singleton.mpr rfl, rfl⟩⟩

/-- C1 counterexample: with `custom_gates = [mygate]` supplied, the
standard-library name `h` (present in the standard-library constructor
list) does not resolve: the map built by `loads` contains only the
caller-supplied gates, so standard-library names do not remain resolvable
alongside. -/
theorem C1_counterexample :
    ¬ (∀ (custom std : List PyGate) (nm : String), (∃ g ∈ std, g.name = nm) →
      (lookupGate (makeGateMap (some custom) std) nm).isSome = true) := by
  intro h
  exact absurd
    (h [⟨"mygate", 0⟩] [⟨"h", 1⟩] "h" ⟨⟨"h", 1⟩, List.mem_singleton.mpr rfl, rfl⟩)
    (by decide)

/-- C2: for both export entry points, an option the caller omits takes its
documented default (`includes = [stdgates.inc]`, `basis_gates = []`,
`disable_constants = true`, `allow_aliasing = false`, `indent` = two
spaces), and an option supplied in `kwargs` takes exactly the supplied
value. -/
theorem C2_dump_option_defaults (kw : Kwargs) :
    parseKwargsDumps none = DumpOptions.default
    ∧ parseKwargsDump none = DumpOptions.default
    ∧ DumpOptions.default =
      { includes := ["stdgates.inc"], basis_gates := [], disable_constants := true,
        allow_aliasing := false, indent := "  " }
    ∧ parseKwargsDumps (some kw) =
      { includes := kw.includes.getD ["stdgates.inc"],
        basis_gates := kw.basis_gates.getD [],
        disable_constants := kw.disable_constants.getD true,
        allow_aliasing := kw.allow_aliasing.getD false,
        indent := kw.indent.getD "  " }
    ∧ parseKwargsDump (some kw) = parseKwargsDumps (some kw) := by
  refine ⟨rfl, rfl, rfl, ?_, ?_⟩ <;>
  · rcases kw with ⟨i, b, d, a, n⟩
    cases i <;> cases b <;> cases d <;> cases a <;> cases n <;> rfl

theorem parseKwargs_agree (kwargs : Option Kwargs) :
    parseKwargsDumps kwargs = parseKwargsDump kwargs := by
  cases kwargs with
  | none => rfl
  | some kw =>
    rcases kw with ⟨i, b, d, a, n⟩
    cases i <;> cases b <;> cases d <;> cases a <;> cases n <;> rfl

/-- A small concrete circuit used to exercise the export path. -/
def exampleCircuit : CircuitIR :=
  ⟨[⟨"q", 2, true⟩], [],
    [⟨"h", [("q", 0)], [], none⟩, ⟨"cx", [("q", 0), ("q", 1)], [], none⟩]⟩

/-- Declared arities of the gates used by `exampleCircuit`. -/
def exampleArities : String → Option Nat := fun nm =>
  if nm = "h" then some 1 else if nm = "cx" then some 2 else none

/-- The text `exampleCircuit` exports to under the default options. -/
def exampleOutput : String :=
  "OPENQASM 3.0;\ninclude \"stdgates.inc\";\nqubit[2] q;\nh q[0];\ncx q[0], q[1];\n"

/-- C5: whenever the external front-end reports any parse or semantic
error, `loads` returns a `QASM3ImporterError` (a category distinct from
the `BuildError` taxonomy) and no circuit; neither gate resolution nor
circuit building is attempted. -/
theorem C5_parse_errors_abort (parse : String → List String → ParseResult)
    (std : List PyGate) (source : String) (custom : Option (List PyGate))
    (ip : Option (List String))
    (h : (parse source (ip.getD defaultIncludePath)).anyErrors = true) :
    (loadsModel parse std source custom ip).1 =
      .error (.qasm3ImporterError "errors during parsing; see printed errors")
    ∧ Step.gateResolutionStep ∉ (loadsModel parse std source custom ip).2
    ∧ Step.buildStep ∉ (loadsModel parse std source custom ip).2
    ∧ ∀ c, (loadsModel parse std source custom ip).1 ≠ .ok c := by
  have hm : loadsModel parse std source custom ip =
      (.error (.qasm3ImporterError "errors during parsing; see printed errors"),
        [.parseStep]) := by
    simp only [loadsModel, h, if_true]
  rw [hm]
  refine ⟨rfl, by simp, by simp, fun c hc => by simp at hc⟩

theorem C5_parse_errors_abort_witness :
    ((fun (_ : String) (_ : List String) => (⟨true, []⟩ : ParseResult)) "garbage"
        ((none : Option (List String)).getD defaultIncludePath)).anyErrors = true
    ∧ (loadsModel (fun _ _ => ⟨true, []⟩) [] "garbage" none none).1 =
      .error (.qasm3ImporterError "errors during parsing; see printed errors") :=
  ⟨rfl, (C5_parse_errors_abort (fun _ _ => ⟨true, []⟩) [] "garbage" none none rfl).1⟩

/-- C10: `load` delegates to `loads` — whenever the input's full contents
are a string `s`, `load` returns exactly the result of `loads` on `s` with
the same arguments; when a filepath cannot be read, `load` fails with a
`QASM3ImporterError` whose message names the path, and parsing is never
attempted. -/
theorem C10_load_delegates (fs : String → Option String)
    (parse : String → List String → ParseResult) (std : List PyGate)
    (custom : Option (List PyGate)) (ip : Option (List String)) :
    (∀ (input : LoadInput) (s : String), inputContents fs input = some s →
      loadModel fs parse std input custom ip = loadsModel parse std s custom ip)
    ∧ (∀ p : String, fs p = none →
      (loadModel fs parse std (.filePath p) custom ip).1 =
        .error (.qasm3ImporterError ("failed to read file '" ++ p ++ "'"))
      ∧ (∃ pre post : String,
          "failed to read file '" ++ p ++ "'" = pre ++ p ++ post)
      ∧ Step.parseStep ∉ (loadModel fs parse std (.filePath p) custom ip).2) := by
  constructor
  · intro input s hs
    cases input with
    | stream contents =>
      simp only [inputContents, Option.some.injEq] at hs
      rw [← hs]
      rfl
    | filePath p =>
      simp only [inputContents] at hs
      simp [loadModel, hs]
  · intro p hp
    refine ⟨by simp [loadModel, hp], ⟨"failed to read file '", "'", rfl⟩, ?_⟩
    simp [loadModel, hp]

theorem C10_load_delegates_witness :
    loadModel (fun _ => some "prog") (fun _ _ => ⟨true, []⟩) []
        (.filePath "a.qasm") none none =
      loadsModel (fun _ _ => ⟨true, []⟩) [] "prog" none none
    ∧ (loadModel (fun _ => none) (fun _ _ => ⟨true, []⟩) []
        (.filePath "a.qasm") none none).1 =
      .error (.qasm3ImporterError ("failed to read file '" ++ "a.qasm" ++ "'")) :=
  ⟨(C10_load_delegates (fun _ => some "prog") (fun _ _ => ⟨true, []⟩) [] none none).1
      (.filePath "a.qasm") "prog" rfl,
    ((C10_load_delegates (fun _ => none) (fun _ _ => ⟨true, []⟩) [] none none).2
      "a.qasm" rfl).1⟩

/-- C8: `dump` writes to the caller-supplied stream at most once, only
after the whole export has succeeded and the produced buffer has been
validated as UTF-8; when the export or the validation fails, the stream's
`write` method is never called. -/
theorem C8_dump_sink_atomicity (validate : String → Option String)
    (circuit : PyCircuit) (kwargs : Option Kwargs)
    (arities : String → Option Nat) :
    (dumpModel validate circuit kwargs arities).2.length ≤ 1
    ∧ (∀ e, (dumpModel validate circuit kwargs arities).1 = .error e →
        (dumpModel validate circuit kwargs arities).2 = [])
    ∧ (∀ s, s ∈ (dumpModel validate circuit kwargs arities).2 →
        ∃ output, exportCircuit circuit.data circuit.layout.isSome
          (parseKwargsDump kwargs) arities = .ok output
          ∧ validate output = some s) := by
  simp only [dumpModel]
  cases hexp : exportCircuit circuit.data circuit.layout.isSome
      (parseKwargsDump kwargs) arities with
  | error e => exact ⟨by simp, fun _ _ => rfl, fun s hs => by simp at hs⟩
  | ok output =>
    cases hval : validate output with
    | none => refine ⟨by simp [hval], fun e he => by simp [hval], fun s hs => by simp [hval] at hs⟩
    | some outputStr =>
      refine ⟨by simp [hval], fun e he => ?_, fun s hs => ?_⟩
      · simp [hval] at he
      · simp [hval] at hs
        exact ⟨output, rfl, by rw [hval, hs]⟩

theorem C8_dump_sink_atomicity_witness :
    (dumpModel (fun _ => none) ⟨exampleCircuit, none⟩ none exampleArities).2 = []
    ∧ (dumpModel (fun t => some t) ⟨exampleCircuit, none⟩ none exampleArities).2.length ≤ 1 :=
  ⟨(C8_dump_sink_atomicity (fun _ => none) ⟨exampleCircuit, none⟩ none
      exampleArities).2.1 (.qasm3ImporterError "invalid utf-8 output") rfl,
    (C8_dump_sink_atomicity (fun t => some t) ⟨exampleCircuit, none⟩ none
      exampleArities).1⟩

/-- C9: the two export entry points agree — both parse their options by the
same rules, both compute layout presence as `layout is not None`, and when
`dumps` succeeds with text `s`, `dump` performs exactly one write of that
same `s` (UTF-8 validation modelled by the identity, as the buffer holds
the exporter's own UTF-8 text). -/
theorem C9_dumps_dump_equiv (circuit : PyCircuit) (kwargs : Option Kwargs)
    (arities : String → Option Nat) (s : String) :
    (∀ kw, parseKwargsDumps kw = parseKwargsDump kw)
    ∧ (dumpsModel circuit kwargs arities = .ok s →
        dumpModel (fun t => some t) circuit kwargs arities = (.ok (), [s])) := by
  refine ⟨parseKwargs_agree, fun h => ?_⟩
  simp only [dumpsModel] at h
  simp only [dumpModel, ← parseKwargs_agree kwargs]
  cases hexp : exportCircuit circuit.data circuit.layout.isSome
      (parseKwargsDumps kwargs) arities with
  | error e => rw [hexp] at h; simp at h
  | ok output =>
    rw [hexp] at h
    simp only [Except.ok.injEq] at h
    rw [h]

theorem C9_dumps_dump_equiv_witness :
    dumpModel (fun t => some t) ⟨exampleCircuit, none⟩ none exampleArities =
      (.ok (), [exampleOutput]) :=
  (C9_dumps_dump_equiv ⟨exampleCircuit, none⟩ none exampleArities exampleOutput).2 rfl

/-- C3: export is deterministic — two `dumps` calls on an identical circuit
with identical options produce identical text. -/
theorem C3_export_deterministic (circuit : PyCircuit) (kwargs : Option Kwargs)
    (arities : String → Option Nat) (s1 s2 : String)
    (h1 : dumpsModel circuit kwargs arities = .ok s1)
    (h2 : dumpsModel circuit kwargs arities = .ok s2) : s1 = s2 := by
  rw [h1] at h2
  injection h2

theorem C3_export_deterministic_witness :
    dumpsModel ⟨exampleCircuit, none⟩ none exampleArities = .ok exampleOutput
    ∧ exampleOutput = exampleOutput :=
  ⟨rfl, C3_export_deterministic ⟨exampleCircuit, none⟩ none exampleArities
    exampleOutput exampleOutput rfl rfl⟩

theorem buildStmts_error_of_bad (factory : String → Option PyGate)
    (stmts : List Stmt)
    (hbad : ∃ nm params ops cond, Stmt.gateCall nm params ops cond ∈ stmts
      ∧ factory nm = none) :
    ∀ acc, ∃ e, buildStmts factory stmts acc = .error e := by
  induction stmts with
  | nil =>
    obtain ⟨nm, params, ops, cond, hmem, _⟩ := hbad
    simp at hmem
  | cons s rest ih =>
    intro acc
    obtain ⟨nm, params, ops, cond, hmem, hfac⟩ := hbad
    cases s with
    | incl nm' =>
      rcases List.mem_cons.mp hmem with h1 | h1
      · simp at h1
      · exact ih ⟨nm, params, ops, cond, h1, hfac⟩ acc
    | regDecl q nm' size =>
      rcases List.mem_cons.mp hmem with h1 | h1
      · simp at h1
      · exact ih ⟨nm, params, ops, cond, h1, hfac⟩ _
    | gateCall nm' params' ops' cond' =>
      cases hfac' : factory nm' with
      | none => exact ⟨.unresolvedGate nm', by simp [buildStmts, hfac']⟩
      | some g =>
        rcases List.mem_cons.mp hmem with h1 | h1
        · exfalso
          have : nm = nm' := by
            injection h1
          rw [this, hfac'] at hfac
          exact Option.noConfusion hfac
        · by_cases hv : ops'.all (fun op => validOperand acc.registers op)
          · have := ih ⟨nm, params, ops, cond, h1, hfac⟩
            simpa [buildStmts, hfac', hv] using this _
          · exact ⟨.invalidOperand nm', by simp [buildStmts, hfac', hv]⟩

/-- C6: a program containing a gate call whose name resolves neither to a
caller-supplied constructor nor to a standard-library constructor makes
the build fail with a `BuildError`, and `loads` returns no circuit at all
— in particular no partially populated CircuitIR reaches the caller. -/
theorem C6_undefined_gate (parse : String → List String → ParseResult)
    (std : List PyGate) (source : String) (custom : Option (List PyGate))
    (ip : Option (List String))
    (hok : (parse source (ip.getD defaultIncludePath)).anyErrors = false)
    (hbad : ∃ nm params ops cond, Stmt.gateCall nm params ops cond ∈
        (parse source (ip.getD defaultIncludePath)).program
      ∧ lookupGate (makeGateMap custom std) nm = none) :
    (∃ e : BuildError, (loadsModel parse std source custom ip).1 =
      .error (.buildError e))
    ∧ ∀ c, (loadsModel parse std source custom ip).1 ≠ .ok c := by
  obtain ⟨e, he⟩ :=
    buildStmts_error_of_bad (lookupGate (makeGateMap custom std))
      (parse source (ip.getD defaultIncludePath)).program hbad ⟨[], [], []⟩
  have hm : (loadsModel parse std source custom ip).1 = .error (.buildError e) := by
    simp only [loadsModel, hok, Bool.false_eq_true, if_false, build, he]
  exact ⟨⟨e, hm⟩, fun c hc => by rw [hm] at hc; exact Except.noConfusion hc⟩

theorem C6_undefined_gate_witness :
    ((fun (_ : String) (_ : List String) =>
        (⟨false, [Stmt.gateCall "foo" [] [] none]⟩ : ParseResult)) "prog"
        ((none : Option (List String)).getD defaultIncludePath)).anyErrors = false
    ∧ ∃ e : BuildError,
        (loadsModel (fun _ _ => ⟨false, [Stmt.gateCall "foo" [] [] none]⟩) []
          "prog" none none).1 = .error (.buildError e) :=
  ⟨rfl,
    (C6_undefined_gate (fun _ _ => ⟨false, [Stmt.gateCall "foo" [] [] none]⟩) []
      "prog" none none rfl
      ⟨"foo", [], [], none, List.mem_singleton.mpr rfl, rfl⟩).1⟩

/-- Decide that an instruction is malformed for export: its operand count
contradicts the gate's declared arity, or some operand reference does not
resolve (spec §7's `ExportError` conditions at instruction granularity). -/
def instrMalformed (c : CircuitIR) (useAliases : Bool)
    (arities : String → Option Nat) (ins : Instruction) : Bool :=
  (match arities ins.name with
   | some n => ins.operands.length != n
   | none => false)
  || ins.operands.any (fun op => (resolveOperand c useAliases op).isNone)

theorem resolveOperands_eq_none (c : CircuitIR) (u : Bool) :
    ∀ ops : List (String × Nat), resolveOperands c u ops = none ↔
      ∃ op ∈ ops, resolveOperand c u op = none := by
  intro ops
  induction ops with
  | nil => simp [resolveOperands]
  | cons op rest ih =>
    cases hop : resolveOperand c u op with
    | none => simp [resolveOperands, hop]
    | some r =>
      cases hrest : resolveOperands c u rest with
      | none =>
        simp only [resolveOperands, hop, hrest]
        simp only [hrest, true_iff] at ih
        simp [ih]
      | some rs =>
        simp only [resolveOperands, hop, hrest]
        constructor
        · intro h; exact Option.noConfusion h
        · rintro ⟨op', hmem, hnone⟩
          rcases List.mem_cons.mp hmem with h1 | h1
          · rw [h1, hop] at hnone; exact Option.noConfusion hnone
          · have : resolveOperands c u rest = none := ih.mpr ⟨op', h1, hnone⟩
            rw [hrest] at this
            exact Option.noConfusion this

theorem exportInstr_error_of_malformed (c : CircuitIR) (u : Bool)
    (arities : String → Option Nat) (i : Nat) (ins : Instruction)
    (h : instrMalformed c u arities ins = true) :
    ∃ e, exportInstr c u arities i ins = .error e ∧ e.index = i := by
  simp only [instrMalformed, Bool.or_eq_true] at h
  cases harit : arities ins.name with
  | some n =>
    by_cases hlen : ins.operands.length = n
    · have hres : ∃ op ∈ ins.operands, resolveOperand c u op = none := by
        rcases h with h | h
        · rw [harit] at h; simp [hlen] at h
        · simpa [Option.isNone_iff_eq_none] using List.any_eq_true.mp h
      have : resolveOperands c u ins.operands = none :=
        (resolveOperands_eq_none c u ins.operands).mpr hres
      exact ⟨⟨i, "unresolved operand reference"⟩,
        by simp [exportInstr, harit, hlen, this], rfl⟩
    · exact ⟨⟨i, "operand count mismatch"⟩, by simp [exportInstr, harit, hlen], rfl⟩
  | none =>
    have hres : ∃ op ∈ ins.operands, resolveOperand c u op = none := by
      rcases h with h | h
      · rw [harit] at h; simp at h
      · simpa [Option.isNone_iff_eq_none] using List.any_eq_true.mp h
    have : resolveOperands c u ins.operands = none :=
      (resolveOperands_eq_none c u ins.operands).mpr hres
    exact ⟨⟨i, "unresolved operand reference"⟩,
      by simp [exportInstr, harit, this], rfl⟩

theorem exportInstr_malformed_of_error (c : CircuitIR) (u : Bool)
    (arities : String → Option Nat) (i : Nat) (ins : Instruction)
    (e : ExportError) (h : exportInstr c u arities i ins = .error e) :
    e.index = i ∧ instrMalformed c u arities ins = true := by
  cases harit : arities ins.name with
  | some n =>
    simp only [exportInstr, harit] at h
    by_cases hlen : ins.operands.length = n
    · rw [if_pos hlen] at h
      cases hres : resolveOperands c u ins.operands with
      | none =>
        simp only [hres] at h
        injection h with h2
        obtain ⟨op, hmem, hnone⟩ :=
          (resolveOperands_eq_none c u ins.operands).mp hres
        refine ⟨by rw [← h2], ?_⟩
        simp only [instrMalformed, Bool.or_eq_true]
        exact Or.inr (List.any_eq_true.mpr ⟨op, hmem, by simp [hnone]⟩)
      | some rs =>
        simp only [hres] at h
        exact Except.noConfusion h
    · rw [if_neg hlen] at h
      injection h with h2
      refine ⟨by rw [← h2], ?_⟩
      simp only [instrMalformed, harit, Bool.or_eq_true]
      exact Or.inl (by simpa using hlen)
  | none =>
    simp only [exportInstr, harit] at h
    cases hres : resolveOperands c u ins.operands with
    | none =>
      simp only [hres] at h
      injection h with h2
      obtain ⟨op, hmem, hnone⟩ :=
        (resolveOperands_eq_none c u ins.operands).mp hres
      refine ⟨by rw [← h2], ?_⟩
      simp only [instrMalformed, Bool.or_eq_true]
      exact Or.inr (List.any_eq_true.mpr ⟨op, hmem, by simp [hnone]⟩)
    | some rs =>
      simp only [hres] at h
      exact Except.noConfusion h

theorem exportInstrs_error_of_malformed (c : CircuitIR) (u : Bool)
    (arities : String → Option Nat) (l : List Instruction)
    (hbad : ∃ ins ∈ l, instrMalformed c u arities ins = true) :
    ∀ i, ∃ e, exportInstrs c u arities i l = .error e := by
  induction l with
  | nil => obtain ⟨ins, hmem, _⟩ := hbad; simp at hmem
  | cons ins rest ih =>
    intro i
    obtain ⟨ins', hmem, hmal⟩ := hbad
    cases hhead : exportInstr c u arities i ins with
    | error e => exact ⟨e, by simp [exportInstrs, hhead]⟩
    | ok s =>
      rcases List.mem_cons.mp hmem with h1 | h1
      · exfalso
        obtain ⟨e, he, _⟩ :=
          exportInstr_error_of_malformed c u arities i ins (h1 ▸ hmal)
        rw [hhead] at he
        exact Except.noConfusion he
      · obtain ⟨e, he⟩ := ih ⟨ins', h1, hmal⟩ (i + 1)
        exact ⟨e, by simp [exportInstrs, hhead, he]⟩

theorem exportInstrs_error_index (c : CircuitIR) (u : Bool)
    (arities : String → Option Nat) :
    ∀ (l : List Instruction) (i : Nat) (e : ExportError),
    exportInstrs c u arities i l = .error e →
    ∃ j, ∃ hj : j < l.length, e.index = i + j
      ∧ instrMalformed c u arities (l.get ⟨j, hj⟩) = true := by
  intro l
  induction l with
  | nil => intro i e h; simp [exportInstrs] at h
  | cons ins rest ih =>
    intro i e h
    cases hhead : exportInstr c u arities i ins with
    | error e' =>
      rw [exportInstrs, hhead] at h
      have he' : e' = e := by injection h
      obtain ⟨hidx, hmal⟩ :=
        exportInstr_malformed_of_error c u arities i ins e' hhead
      exact ⟨0, by simp, by rw [← he', hidx]; simp, by simpa using hmal⟩
    | ok s =>
      rw [exportInstrs, hhead] at h
      cases hrest : exportInstrs c u arities (i + 1) rest with
      | error e' =>
        rw [hrest] at h
        have he' : e' = e := by injection h
        obtain ⟨j, hj, hidx, hmal⟩ := ih (i + 1) e' hrest
        refine ⟨j + 1, by simpa using Nat.succ_lt_succ hj, ?_, by simpa using hmal⟩
        rw [← he', hidx]
        omega
      | ok ss => rw [hrest] at h; exact Except.noConfusion h

/-- C7: a malformed CircuitIR — an instruction whose operand count
contradicts the gate's declared arity or which references an unresolved
alias or register index — makes export fail with an `ExportError` whose
index identifies a malformed instruction, the export aborts, and no text
is returned. -/
theorem C7_malformed_export (c : CircuitIR) (layout : Bool)
    (opts : DumpOptions) (arities : String → Option Nat)
    (hbad : ∃ ins ∈ c.instructions,
      instrMalformed c (opts.allow_aliasing && layout) arities ins = true) :
    (∃ e, exportCircuit c layout opts arities = .error e
      ∧ ∃ hj : e.index < c.instructions.length,
          instrMalformed c (opts.allow_aliasing && layout) arities
            (c.instructions.get ⟨e.index, hj⟩) = true)
    ∧ ∀ s, exportCircuit c layout opts arities ≠ .ok s := by
  obtain ⟨e, he⟩ :=
    exportInstrs_error_of_malformed c (opts.allow_aliasing && layout) arities
      c.instructions hbad 0
  obtain ⟨j, hj, hidx, hmal⟩ :=
    exportInstrs_error_index c (opts.allow_aliasing && layout) arities
      c.instructions 0 e he
  have hexp : exportCircuit c layout opts arities = .error e := by
    simp only [exportCircuit, exportStmts, he]
  have hj' : e.index < c.instructions.length := by omega
  refine ⟨⟨e, hexp, hj', ?_⟩, fun s hs => by rw [hexp] at hs; exact Except.noConfusion hs⟩
  have : e.index = j := by omega
  subst this
  exact hmal

theorem C7_malformed_export_witness :
    (∃ ins ∈ (⟨[], [], [⟨"h", [("q", 0)], [], none⟩]⟩ : CircuitIR).instructions,
      instrMalformed ⟨[], [], [⟨"h", [("q", 0)], [], none⟩]⟩
        (DumpOptions.default.allow_aliasing && false) (fun _ => none) ins = true)
    ∧ ∃ e, exportCircuit ⟨[], [], [⟨"h", [("q", 0)], [], none⟩]⟩ false
        DumpOptions.default (fun _ => none) = .error e :=
  ⟨⟨⟨"h", [("q", 0)], [], none⟩, List.mem_singleton.mpr rfl, rfl⟩,
    ((C7_malformed_export ⟨[], [], [⟨"h", [("q", 0)], [], none⟩]⟩ false
        DumpOptions.default (fun _ => none)
        ⟨⟨"h", [("q", 0)], [], none⟩, List.mem_singleton.mpr rfl, rfl⟩).1).elim
      (fun e hE => ⟨e, hE.1⟩)⟩

/-- An instruction is well formed for export when every operand is a valid
direct register reference and its operand count agrees with the gate's
declared arity whenever one is known. -/
def WellFormedInstr (c : CircuitIR) (arities : String → Option Nat)
    (ins : Instruction) : Prop :=
  (∀ op ∈ ins.operands, validOperand c.registers op = true)
  ∧ match arities ins.name with
    | some n => ins.operands.length = n
    | none => True

theorem resolveOperand_of_valid (c : CircuitIR) (u : Bool) (op : String × Nat)
    (h : validOperand c.registers op = true) : resolveOperand c u op = some op := by
  unfold validOperand at h
  cases hfind : findRegister c.registers op.1 with
  | none => rw [hfind] at h; exact Bool.noConfusion h
  | some r =>
    rw [hfind] at h
    simp only [decide_eq_true_eq] at h
    simp [resolveOperand, hfind, h]

theorem resolveOperands_of_valid (c : CircuitIR) (u : Bool) :
    ∀ ops : List (String × Nat), (∀ op ∈ ops, validOperand c.registers op = true) →
    resolveOperands c u ops = some ops := by
  intro ops
  induction ops with
  | nil => intro _; rfl
  | cons op rest ih =>
    intro h
    have hop := resolveOperand_of_valid c u op (h op (List.mem_cons_self _ _))
    have hrest := ih (fun op' hop' => h op' (List.mem_cons_of_mem _ hop'))
    simp [resolveOperands, hop, hrest]

theorem exportInstr_of_wf (c : CircuitIR) (u : Bool)
    (arities : String → Option Nat) (i : Nat) (ins : Instruction)
    (h : WellFormedInstr c arities ins) :
    exportInstr c u arities i ins =
      .ok (.gateCall ins.name ins.params ins.operands ins.cond) := by
  obtain ⟨hops, harity⟩ := h
  have hres := resolveOperands_of_valid c u ins.operands hops
  cases harit : arities ins.name with
  | some n =>
    rw [harit] at harity
    simp [exportInstr, harit, harity, hres]
  | none => simp [exportInstr, harit, hres]

theorem exportInstrs_of_wf (c : CircuitIR) (u : Bool)
    (arities : String → Option Nat) :
    ∀ (l : List Instruction), (∀ ins ∈ l, WellFormedInstr c arities ins) →
    ∀ i, exportInstrs c u arities i l =
      .ok (l.map fun ins => .gateCall ins.name ins.params ins.operands ins.cond) := by
  intro l
  induction l with
  | nil => intro _ i; rfl
  | cons ins rest ih =>
    intro h i
    have hhead := exportInstr_of_wf c u arities i ins (h ins (List.mem_cons_self _ _))
    have hrest := ih (fun ins' h' => h ins' (List.mem_cons_of_mem _ h')) (i + 1)
    simp [exportInstrs, hhead, hrest]

/-- The statement list a well-formed CircuitIR exports to: deduplicated
includes, register declarations in insertion order, then one gate-call
statement per instruction in execution order. -/
def exportedStmts (c : CircuitIR) (opts : DumpOptions) : List Stmt :=
  (dedupIncludes [] opts.includes).map Stmt.incl
    ++ c.registers.map (fun r => Stmt.regDecl r.quantum r.name r.size)
    ++ c.instructions.map (fun ins => .gateCall ins.name ins.params ins.operands ins.cond)

theorem exportStmts_of_wf (c : CircuitIR) (layout : Bool) (opts : DumpOptions)
    (arities : String → Option Nat)
    (hwf : ∀ ins ∈ c.instructions, WellFormedInstr c arities ins) :
    exportStmts c layout opts arities = .ok (exportedStmts c opts) := by
  simp [exportStmts,
    exportInstrs_of_wf c (opts.allow_aliasing && layout) arities c.instructions hwf 0,
    exportedStmts]

theorem buildStmts_incls (factory : String → Option PyGate) (incs : List String) :
    ∀ (rest : List Stmt) (acc : CircuitIR),
    buildStmts factory (incs.map Stmt.incl ++ rest) acc = buildStmts factory rest acc := by
  induction incs with
  | nil => intro rest acc; rfl
  | cons x xs ih => intro rest acc; exact ih rest acc

theorem buildStmts_regDecls (factory : String → Option PyGate) (regs : List Register) :
    ∀ (rest : List Stmt) (acc : CircuitIR),
    buildStmts factory
        (regs.map (fun r => Stmt.regDecl r.quantum r.name r.size) ++ rest) acc =
      buildStmts factory rest
        { acc with registers := acc.registers ++ regs } := by
  induction regs with
  | nil => intro rest acc; simp
  | cons r rs ih =>
    intro rest acc
    rw [List.append_cons]
    exact ih rest { acc with registers := acc.registers ++ [r] }

theorem buildStmts_gateCalls (factory : String → Option PyGate) (instrs : List Instruction) :
    ∀ acc : CircuitIR,
    (∀ ins ∈ instrs, ∀ op ∈ ins.operands, validOperand acc.registers op = true) →
    (∀ ins ∈ instrs, (factory ins.name).isSome = true) →
    buildStmts factory
        (instrs.map (fun ins => Stmt.gateCall ins.name ins.params ins.operands ins.cond))
        acc =
      .ok { acc with instructions := acc.instructions ++ instrs } := by
  induction instrs with
  | nil => intro acc _ _; simp [buildStmts]
  | cons ins rest ih =>
    intro acc hv hf
    obtain ⟨g, hg⟩ := Option.isSome_iff_exists.mp (hf ins (List.mem_cons_self _ _))
    have hall : ins.operands.all (fun op => validOperand acc.registers op) = true :=
      List.all_eq_true.mpr (fun op hop => hv ins (List.mem_cons_self _ _) op hop)
    have hstep : buildStmts factory
        ((ins :: rest).map
          (fun ins => Stmt.gateCall ins.name ins.params ins.operands ins.cond)) acc =
        buildStmts factory
          (rest.map (fun ins => Stmt.gateCall ins.name ins.params ins.operands ins.cond))
          { acc with instructions := acc.instructions ++ [ins] } := by
      simp only [List.map_cons, buildStmts, hg, hall, if_true]
    rw [hstep]
    nth_rewrite 2 [List.append_cons]
    exact ih { acc with instructions := acc.instructions ++ [ins] }
      (fun ins' h' op hop => hv ins' (List.mem_cons_of_mem _ h') op hop)
      (fun ins' h' => hf ins' (List.mem_cons_of_mem _ h'))

/-- C4: round trip — a CircuitIR with no unsupported construct (no aliases,
valid direct operand references, arity-consistent instructions, with every
gate name resolvable through an equivalent gate factory) exports to
statements that build back to exactly the original registers and
instructions; through a front-end that parses the rendered text back to
those statements, `loads` on the `dumps` output returns the original
CircuitIR. -/
theorem C4_roundtrip (c : CircuitIR) (layout : Bool) (opts : DumpOptions)
    (arities : String → Option Nat) (custom : Option (List PyGate))
    (std : List PyGate)
    (halias : c.aliases = [])
    (hwf : ∀ ins ∈ c.instructions, WellFormedInstr c arities ins)
    (hfac : ∀ ins ∈ c.instructions,
      (lookupGate (makeGateMap custom std) ins.name).isSome = true) :
    exportStmts c layout opts arities = .ok (exportedStmts c opts)
    ∧ exportCircuit c layout opts arities = .ok (renderProgram (exportedStmts c opts))
    ∧ build (exportedStmts c opts) (lookupGate (makeGateMap custom std)) = .ok c
    ∧ ∀ (parse : String → List String → ParseResult) (ip : Option (List String)),
        parse (renderProgram (exportedStmts c opts)) (ip.getD defaultIncludePath) =
          ⟨false, exportedStmts c opts⟩ →
        (loadsModel parse std (renderProgram (exportedStmts c opts)) custom ip).1 =
          .ok c := by
  have hstmts := exportStmts_of_wf c layout opts arities hwf
  have hbuild : build (exportedStmts c opts) (lookupGate (makeGateMap custom std)) = .ok c := by
    unfold build exportedStmts
    rw [List.append_assoc, buildStmts_incls, buildStmts_regDecls]
    have := buildStmts_gateCalls (lookupGate (makeGateMap custom std)) c.instructions
      { registers := [] ++ c.registers, aliases := [], instructions := [] }
      (fun ins h op hop => by
        simpa using (hwf ins h).1 op hop)
      hfac
    rw [this]
    cases c with
    | mk r a i =>
      simp only [List.nil_append] at halias ⊢
      rw [halias]
  refine ⟨hstmts, by simp [exportCircuit, hstmts], hbuild, ?_⟩
  intro parse ip hparse
  simp only [loadsModel, hparse, Bool.false_eq_true, if_false, hbuild]

/-- The standard-library constructors for the two gates `exampleCircuit`
uses. -/
def exampleStdGates : List PyGate := [⟨"h", 1⟩, ⟨"cx", 2⟩]

theorem C4_roundtrip_witness :
    exampleCircuit.aliases = []
    ∧ build (exportedStmts exampleCircuit DumpOptions.default)
        (lookupGate (makeGateMap none exampleStdGates)) = .ok exampleCircuit
    ∧ (loadsModel
        (fun _ _ => ⟨false, exportedStmts exampleCircuit DumpOptions.default⟩)
        exampleStdGates
        (renderProgram (exportedStmts exampleCircuit DumpOptions.default))
        none none).1 = .ok exampleCircuit := by
  have h := C4_roundtrip exampleCircuit false DumpOptions.default exampleArities
    none exampleStdGates rfl
    (by
      intro ins hins
      simp only [exampleCircuit] at hins
      rcases List.mem_cons.mp hins with h1 | h1
      · subst h1; exact ⟨by decide, rfl⟩
      · rcases List.mem_cons.mp h1 with h2 | h2
        · subst h2; exact ⟨by decide, rfl⟩
        · simp at h2)
    (by
      intro ins hins
      simp only [exampleCircuit] at hins
      rcases List.mem_cons.mp hins with h1 | h1
      · subst h1; decide
      · rcases List.mem_cons.mp h1 with h2 | h2
        · subst h2; decide
        · simp at h2)
  exact ⟨rfl, h.2.2.1, h.2.2.2
    (fun _ _ => ⟨false, exportedStmts exampleCircuit DumpOptions.default⟩) none rfl⟩

end Qasm3
